import Mathlib

set_option linter.unusedVariables false
set_option linter.unusedSectionVars false

/-!
Shallow embedding of the rka-vrf library: two VRF constructions over a
prime-order group (an EC-VRF over Ed25519 in `src/ec_vrf.rs`, and an
RKA-VRF with an embedded inversion sigma-protocol, generic over a curve,
in `src/rka_vrf.rs`).

Modelling conventions:
  - The group `G` is written additively (the prime-order subgroup of the
    curve); scalars form a field `S` (the field `Z_q`, `q` prime) acting
    on `G` by scalar multiplication (`Module S G`).
  - Byte strings are `List Nat`.
  - The hash primitives (SHA-512 used as hash-to-scalar, hash-to-point,
    raw digest, and digest-as-big-integer) and the compressed point
    encoding are fields of an abstract `GroupAdapter`, since they are
    external dependencies of the core.
  - Randomness drawn inside `eval` and `prove` (the nonce `k` and the
    blinding scalars `alpha`, `beta`, `tau0`, `tau1`) is passed as
    explicit arguments.
  - `Scalar::invert().unwrap()` (curv), which panics exactly when the
    scalar is zero, is modelled by `invert : S -> Option S` propagated
    through `Option`; `none` is the `ZeroScalar` failure.
-/

/-- Abstract group adapter: the trait-level dependencies of the core
(generator, compressed encoding, scalar encoding, the SHA-512-based
hash-to-scalar and hash-to-point, the raw 64-byte digest, the digest
read as a big integer, reduction of a big integer into the scalar field,
and multiplication by the curve cofactor). -/
structure GroupAdapter (G S : Type) where
  gen : G
  compress : G → List Nat
  encodeScalar : S → List Nat
  hashToScalar : List Nat → S
  hashToPoint : List Nat → G
  sha512 : List Nat → List Nat
  sha512Nat : List Nat → Nat
  natToScalar : Nat → S
  cofactorMul : G → G

/-- Model of curv `Scalar::invert`: fails exactly on the zero scalar. -/
def invert {S : Type} [Field S] [DecidableEq S] (s : S) : Option S :=
  if s = 0 then none else some s⁻¹

namespace EcVrf

/-- `VRFOutput` of `src/ec_vrf.rs`: `(gamma, c, s, y)`. -/
structure VRFOutput (G S : Type) where
  gamma : G
  c : S
  s : S
  y : List Nat
deriving DecidableEq

variable {G S : Type} [AddCommGroup G] [DecidableEq G] [Field S] [DecidableEq S]
  [Module S G]

/-- `VRFOutput::hash_point`: hash-to-curve of the canonical scalar bytes. -/
def hash_point (A : GroupAdapter G S) (x : S) : G :=
  A.hashToPoint (A.encodeScalar x)

/-- `VRFOutput::hash_challenge`: Fiat-Shamir challenge over the compressed
points `g, h, vk, gamma, gk, hk` in order. -/
def hash_challenge (A : GroupAdapter G S) (g h vk gamma gk hk : G) : S :=
  A.hashToScalar (A.compress g ++ A.compress h ++ A.compress vk ++
    A.compress gamma ++ A.compress gk ++ A.compress hk)

/-- `VRFOutput::hash_output`: the raw SHA-512 digest of a compressed point. -/
def hash_output (A : GroupAdapter G S) (gamma_f : G) : List Nat :=
  A.sha512 (A.compress gamma_f)

/-- `VRFOutput::eval` with the random nonce `k` passed explicitly. -/
def eval (A : GroupAdapter G S) (vk : G) (sk x k : S) : VRFOutput G S :=
  let h := hash_point A x
  let gamma := sk • h
  let gk := k • A.gen
  let hk := k • h
  let c := hash_challenge A A.gen h vk gamma gk hk
  let s := k - c * sk
  let y := hash_output A (A.cofactorMul gamma)
  ⟨gamma, c, s, y⟩

/-- `VRFOutput::verify`. -/
def verify (A : GroupAdapter G S) (out : VRFOutput G S) (vk : G) (x : S) :
    Bool :=
  let u := out.c • vk + out.s • A.gen
  let h := hash_point A x
  let v := out.c • out.gamma + out.s • h
  let c_comp := hash_challenge A A.gen h vk out.gamma u v
  let y_comp := hash_output A (A.cofactorMul out.gamma)
  decide (out.c = c_comp) && decide (out.y = y_comp)

/-- The first conjunct of `verify` (challenge recomputation), as a function
of the same arguments. -/
def cConjunct (A : GroupAdapter G S) (out : VRFOutput G S) (vk : G) (x : S) :
    Bool :=
  let u := out.c • vk + out.s • A.gen
  let h := hash_point A x
  let v := out.c • out.gamma + out.s • h
  decide (out.c = hash_challenge A A.gen h vk out.gamma u v)

/-- The second conjunct of `verify` (output recomputation), as a function of
the same arguments; `vk` and `x` are not consulted. -/
def yConjunct (A : GroupAdapter G S) (out : VRFOutput G S) (vk : G) (x : S) :
    Bool :=
  decide (out.y = hash_output A (A.cofactorMul out.gamma))

end EcVrf

/-- `InversionProof` of `src/rka_vrf.rs`: `(zt, zl, zr, x, t1_point)`. -/
structure InversionProof (G S : Type) where
  zt : S
  zl : S
  zr : S
  x : S
  t1_point : G
deriving DecidableEq

namespace InversionProof

variable {G S : Type} [AddCommGroup G] [DecidableEq G] [Field S] [DecidableEq S]
  [Module S G]

/-- `InversionProof::challenge`: Fiat-Shamir hash of the compressed points
`g, h, g_tilde, h_tilde, delta, theta, s1, s2, t0, t1` in order, the digest
read as a big integer and reduced into the scalar field. -/
def challenge (A : GroupAdapter G S)
    (g h g_tilde h_tilde delta theta s1 s2 t0 t1 : G) : S :=
  A.natToScalar (A.sha512Nat
    (A.compress g ++ A.compress h ++ A.compress g_tilde ++
     A.compress h_tilde ++ A.compress delta ++ A.compress theta ++
     A.compress s1 ++ A.compress s2 ++ A.compress t0 ++ A.compress t1))

/-- `InversionProof::prove` with the four random blinding scalars passed
explicitly. The source unwraps `gamma.invert()` twice (for `t1` and for
`zr`); both calls are modelled by the fallible `invert`. -/
def prove (A : GroupAdapter G S) (g h g_tilde h_tilde : G) (gamma : S)
    (delta theta : G) (alpha beta tau0 tau1 : S) :
    Option (InversionProof G S) := do
  let s1 := alpha • g
  let s2 := beta • h
  let t0 := alpha * beta
  let t1 := alpha * (← invert gamma) + beta * gamma
  let t0_point := t0 • g_tilde + tau0 • h_tilde
  let t1_point := t1 • g_tilde + tau1 • h_tilde
  let x := challenge A g h g_tilde h_tilde delta theta s1 s2 t0_point t1_point
  let zt := tau1 * x + tau0
  let zl := alpha + x * gamma
  let zr := beta + x * (← invert gamma)
  pure ⟨zt, zl, zr, x, t1_point⟩

/-- `InversionProof::verify`: reconstruct `t0_point`, `s1`, `s2`, recompute
the challenge and compare with the stored one. -/
def verify (pf : InversionProof G S) (A : GroupAdapter G S)
    (g h g_tilde h_tilde delta theta : G) : Bool :=
  let t0_point :=
    (pf.zl * pf.zr - pf.x * pf.x) • g_tilde +
      pf.zt • h_tilde + (-pf.x) • pf.t1_point
  let s1 := pf.zl • g + (-pf.x) • delta
  let s2 := pf.zr • h + (-pf.x) • theta
  let x_comp := challenge A g h g_tilde h_tilde delta theta s1 s2 t0_point
    pf.t1_point
  decide (x_comp = pf.x)

/-- Proof-engineering helper: the proof object produced by a successful run
of `prove` (nonzero `gamma`), written out without the option monad. -/
def proveResult (A : GroupAdapter G S) (g h g_tilde h_tilde : G) (gamma : S)
    (delta theta : G) (alpha beta tau0 tau1 : S) : InversionProof G S :=
  ⟨tau1 * challenge A g h g_tilde h_tilde delta theta (alpha • g) (beta • h)
      ((alpha * beta) • g_tilde + tau0 • h_tilde)
      ((alpha * gamma⁻¹ + beta * gamma) • g_tilde + tau1 • h_tilde) + tau0,
   alpha + challenge A g h g_tilde h_tilde delta theta (alpha • g) (beta • h)
      ((alpha * beta) • g_tilde + tau0 • h_tilde)
      ((alpha * gamma⁻¹ + beta * gamma) • g_tilde + tau1 • h_tilde) * gamma,
   beta + challenge A g h g_tilde h_tilde delta theta (alpha • g) (beta • h)
      ((alpha * beta) • g_tilde + tau0 • h_tilde)
      ((alpha * gamma⁻¹ + beta * gamma) • g_tilde + tau1 • h_tilde) * gamma⁻¹,
   challenge A g h g_tilde h_tilde delta theta (alpha • g) (beta • h)
      ((alpha * beta) • g_tilde + tau0 • h_tilde)
      ((alpha * gamma⁻¹ + beta * gamma) • g_tilde + tau1 • h_tilde),
   (alpha * gamma⁻¹ + beta * gamma) • g_tilde + tau1 • h_tilde⟩

end InversionProof

namespace RkaVrf

/-- `VRFOutput` of `src/rka_vrf.rs`: `(y, u, r)` with `y` a big integer. -/
structure VRFOutput (G S : Type) where
  y : Nat
  u : G
  r : InversionProof G S
deriving DecidableEq

variable {G S : Type} [AddCommGroup G] [DecidableEq G] [Field S] [DecidableEq S]
  [Module S G]

/-- `VRFOutput::hash_point` of `src/rka_vrf.rs`: the generator times the
hash of `compress(vk) + compress(x)` reduced into the scalar field. -/
def hash_point (A : GroupAdapter G S) (vk x : G) : G :=
  A.natToScalar (A.sha512Nat (A.compress vk ++ A.compress x)) • A.gen

/-- `VRFOutput::hash_output` of `src/rka_vrf.rs`: the SHA-512 digest of
`compress(x) + compress(u)` read as a big integer. The source applies no
reduction modulo the group order here (`result_bigint` with no
`from_bigint`). -/
def hash_output (A : GroupAdapter G S) (x u : G) : Nat :=
  A.sha512Nat (A.compress x ++ A.compress u)

/-- `VRFOutput::eval` with the blinding scalars of the embedded inversion
proof passed explicitly. -/
def eval (A : GroupAdapter G S) (g_tilde h_tilde vk : G) (sk : S) (x : G)
    (alpha beta tau0 tau1 : S) : Option (VRFOutput G S) := do
  let base := hash_point A vk x
  let u := (← invert sk) • base
  let r ← InversionProof.prove A A.gen base g_tilde h_tilde sk vk u
    alpha beta tau0 tau1
  let y := hash_output A x u
  pure ⟨y, u, r⟩

/-- `VRFOutput::verify`. -/
def verify (out : VRFOutput G S) (A : GroupAdapter G S)
    (g_tilde h_tilde vk x : G) : Bool :=
  decide (out.y = hash_output A x out.u) &&
    out.r.verify A A.gen (hash_point A vk x) g_tilde h_tilde vk out.u

end RkaVrf

/-!
A small concrete instance used to witness the parametric theorems: the
group and scalar field are both `ZMod 5` (the group written additively,
generator `1`), and the hash primitives are simple computable stand-ins.
-/

instance fact_prime_5 : Fact (Nat.Prime 5) := ⟨by norm_num⟩

/-- Concrete demonstration adapter over `ZMod 5`. -/
def demoAdapter : GroupAdapter (ZMod 5) (ZMod 5) where
  gen := 1
  compress p := [p.val]
  encodeScalar s := [s.val]
  hashToScalar bs := ((bs.foldl (fun a b => a + b) 0 : Nat) : ZMod 5)
  hashToPoint bs := ((bs.foldl (fun a b => a + b) 0 : Nat) : ZMod 5)
  sha512 bs := [bs.foldl (fun a b => a + b) 0 + 7]
  sha512Nat bs := bs.foldl (fun a b => a + b) 0 + 7
  natToScalar n := (n : ZMod 5)
  cofactorMul p := (8 : ZMod 5) * p

/-!
Helper theorems shared by the claim theorems below.
-/

section Theorems

variable {G S : Type} [AddCommGroup G] [DecidableEq G] [Field S] [DecidableEq S]
  [Module S G]

/-- Completeness core for EC-VRF: any secret key `sk` (zero included), any
input `x`, any nonce `k`, with `vk = sk • g`. -/
theorem EcVrf.verify_eval_of_vk (A : GroupAdapter G S) (sk x k : S) (vk : G)
    (hvk : vk = sk • A.gen) :
    EcVrf.verify A (EcVrf.eval A vk sk x k) vk x = true := by
  subst hvk
  have hu : (EcVrf.hash_challenge A A.gen (EcVrf.hash_point A x) (sk • A.gen)
        (sk • EcVrf.hash_point A x) (k • A.gen) (k • EcVrf.hash_point A x)) •
        sk • A.gen +
      (k - (EcVrf.hash_challenge A A.gen (EcVrf.hash_point A x) (sk • A.gen)
        (sk • EcVrf.hash_point A x) (k • A.gen) (k • EcVrf.hash_point A x)) *
        sk) • A.gen
      = k • A.gen := by
    module
  have hv : (EcVrf.hash_challenge A A.gen (EcVrf.hash_point A x) (sk • A.gen)
        (sk • EcVrf.hash_point A x) (k • A.gen) (k • EcVrf.hash_point A x)) •
        sk • EcVrf.hash_point A x +
      (k - (EcVrf.hash_challenge A A.gen (EcVrf.hash_point A x) (sk • A.gen)
        (sk • EcVrf.hash_point A x) (k • A.gen) (k • EcVrf.hash_point A x)) *
        sk) • EcVrf.hash_point A x
      = k • EcVrf.hash_point A x := by
    module
  simp only [EcVrf.verify, EcVrf.eval, hu, hv, decide_eq_true_eq,
    Bool.and_eq_true, decide_eq_true_iff]
  exact ⟨trivial, trivial⟩

/-- For a nonzero witness scalar, `prove` succeeds and returns exactly
`proveResult`. -/
theorem InversionProof.prove_eq_some (A : GroupAdapter G S)
    (g h g_tilde h_tilde : G) (gamma : S) (delta theta : G)
    (alpha beta tau0 tau1 : S) (hγ : gamma ≠ 0) :
    InversionProof.prove A g h g_tilde h_tilde gamma delta theta
        alpha beta tau0 tau1 =
      some (InversionProof.proveResult A g h g_tilde h_tilde gamma delta theta
        alpha beta tau0 tau1) := by
  simp [InversionProof.prove, invert, hγ, InversionProof.proveResult]

/-- When `gamma` is zero, `prove` fails (the `ZeroScalar` error of the
source). -/
theorem InversionProof.prove_zero_eq_none (A : GroupAdapter G S)
    (g h g_tilde h_tilde : G) (delta theta : G) (alpha beta tau0 tau1 : S) :
    InversionProof.prove A g h g_tilde h_tilde (0 : S) delta theta
      alpha beta tau0 tau1 = none := by
  simp [InversionProof.prove, invert]

/-- Completeness core for the sigma protocol: the proof object of a
successful `prove` run passes `verify` whenever `delta = gamma • g` and
`theta = gamma⁻¹ • h`. -/
theorem InversionProof.proveResult_verify (A : GroupAdapter G S)
    (g h g_tilde h_tilde : G) (gamma : S) (delta theta : G)
    (alpha beta tau0 tau1 : S)
    (hγ : gamma ≠ 0) (hδ : delta = gamma • g) (hθ : theta = gamma⁻¹ • h) :
    (InversionProof.proveResult A g h g_tilde h_tilde gamma delta theta
        alpha beta tau0 tau1).verify A g h g_tilde h_tilde delta theta =
      true := by
  subst hδ hθ
  have hγγ : gamma * gamma⁻¹ = 1 := mul_inv_cancel₀ hγ
  simp only [InversionProof.verify, InversionProof.proveResult,
    decide_eq_true_eq]
  generalize hX : InversionProof.challenge A g h g_tilde h_tilde (gamma • g)
    (gamma⁻¹ • h) (alpha • g) (beta • h)
    ((alpha * beta) • g_tilde + tau0 • h_tilde)
    ((alpha * gamma⁻¹ + beta * gamma) • g_tilde + tau1 • h_tilde) = x
  have hs1 : (alpha + x * gamma) • g + (-x) • (gamma • g) = alpha • g := by
    module
  have hs2 : (beta + x * gamma⁻¹) • h + (-x) • (gamma⁻¹ • h) = beta • h := by
    module
  have ht0 :
      ((alpha + x * gamma) * (beta + x * gamma⁻¹) - x * x) • g_tilde +
        (tau1 * x + tau0) • h_tilde +
        (-x) • ((alpha * gamma⁻¹ + beta * gamma) • g_tilde +
          tau1 • h_tilde) =
      (alpha * beta) • g_tilde + tau0 • h_tilde := by
    match_scalars
    · linear_combination (x * x) * hγγ
    · ring
  rw [hs1, hs2, ht0, hX]

/-- For a nonzero secret key, `RkaVrf.eval` succeeds and its components are
the hash output, the inverted-key point and the embedded proof object. -/
theorem RkaVrf.eval_eq_some (A : GroupAdapter G S) (g_tilde h_tilde vk : G)
    (sk : S) (x : G) (alpha beta tau0 tau1 : S) (hsk : sk ≠ 0) :
    RkaVrf.eval A g_tilde h_tilde vk sk x alpha beta tau0 tau1 =
      some ⟨RkaVrf.hash_output A x (sk⁻¹ • RkaVrf.hash_point A vk x),
            sk⁻¹ • RkaVrf.hash_point A vk x,
            InversionProof.proveResult A A.gen (RkaVrf.hash_point A vk x)
              g_tilde h_tilde sk vk (sk⁻¹ • RkaVrf.hash_point A vk x)
              alpha beta tau0 tau1⟩ := by
  simp [RkaVrf.eval, invert, hsk, InversionProof.prove,
    InversionProof.proveResult]

/-- When the secret key is zero, `RkaVrf.eval` fails (the `ZeroScalar`
error of the source). -/
theorem RkaVrf.eval_zero_eq_none (A : GroupAdapter G S)
    (g_tilde h_tilde vk : G) (x : G) (alpha beta tau0 tau1 : S) :
    RkaVrf.eval A g_tilde h_tilde vk (0 : S) x alpha beta tau0 tau1 =
      none := by
  simp [RkaVrf.eval, invert]

/-- Any successful `RkaVrf.eval` run has a nonzero key, the inverted-key
`u` component, and the digest `y` component. -/
theorem RkaVrf.eval_some_inv (A : GroupAdapter G S) (g_tilde h_tilde vk : G)
    (sk : S) (x : G) (alpha beta tau0 tau1 : S) (out : RkaVrf.VRFOutput G S)
    (h : RkaVrf.eval A g_tilde h_tilde vk sk x alpha beta tau0 tau1 =
      some out) :
    sk ≠ 0 ∧ out.u = sk⁻¹ • RkaVrf.hash_point A vk x ∧
      out.y = RkaVrf.hash_output A x out.u := by
  by_cases hsk : sk = 0
  · subst hsk
    rw [RkaVrf.eval_zero_eq_none] at h
    exact absurd h (by simp)
  · rw [RkaVrf.eval_eq_some A g_tilde h_tilde vk sk x alpha beta tau0 tau1
      hsk] at h
    obtain rfl := (Option.some.inj h).symm
    exact ⟨hsk, rfl, rfl⟩

end Theorems

/-!
Claim theorems.
-/

section Claims

variable {G S : Type} [AddCommGroup G] [DecidableEq G] [Field S] [DecidableEq S]
  [Module S G]

/-- In the demonstration field `ZMod 5`, the inverse of 2 is 3. The field
inverse of `ZMod` is not kernel-reducible, so concrete witnesses rewrite
it away with this equation first. -/
theorem demo_inv_two : (2 : ZMod 5)⁻¹ = 3 :=
  inv_eq_of_mul_eq_one_right (by decide)

/-- C1: Completeness of EC-VRF: for every secret key `sk`, input scalar
`x`, public key `vk = g • sk` and nonce `k`,
`EcVrf.verify (EcVrf.eval vk sk x) vk x` returns true. -/
theorem claim_C1_ec_vrf_completeness (A : GroupAdapter G S) (sk x k : S)
    (vk : G) (hvk : vk = sk • A.gen) :
    EcVrf.verify A (EcVrf.eval A vk sk x k) vk x = true :=
  EcVrf.verify_eval_of_vk A sk x k vk hvk

theorem claim_C1_witness :
    ((2 : ZMod 5) = (2 : ZMod 5) • demoAdapter.gen) ∧
    EcVrf.verify demoAdapter (EcVrf.eval demoAdapter 2 2 3 4) 2 3 = true :=
  ⟨by decide, claim_C1_ec_vrf_completeness demoAdapter 2 3 4 2 (by decide)⟩

/-- C2: Completeness of RKA-VRF: for every nonzero secret key `sk`, input
point `x`, public key `vk = g • sk`, CRS pair and internal randomness,
`RkaVrf.eval` succeeds and its output passes `RkaVrf.verify`. -/
theorem claim_C2_rka_vrf_completeness (A : GroupAdapter G S)
    (g_tilde h_tilde vk : G) (sk : S) (x : G) (alpha beta tau0 tau1 : S)
    (hsk : sk ≠ 0) (hvk : vk = sk • A.gen) :
    ∃ out, RkaVrf.eval A g_tilde h_tilde vk sk x alpha beta tau0 tau1 =
        some out ∧
      RkaVrf.verify out A g_tilde h_tilde vk x = true := by
  refine ⟨_, RkaVrf.eval_eq_some A g_tilde h_tilde vk sk x
    alpha beta tau0 tau1 hsk, ?_⟩
  rw [RkaVrf.verify, Bool.and_eq_true]
  constructor
  · simp
  · exact InversionProof.proveResult_verify A A.gen (RkaVrf.hash_point A vk x)
      g_tilde h_tilde sk vk (sk⁻¹ • RkaVrf.hash_point A vk x)
      alpha beta tau0 tau1 hsk hvk rfl

theorem claim_C2_witness :
    ((2 : ZMod 5) ≠ 0) ∧ ((2 : ZMod 5) = (2 : ZMod 5) • demoAdapter.gen) ∧
    (∃ out, RkaVrf.eval demoAdapter 1 2 2 2 3 1 1 1 1 = some out ∧
      RkaVrf.verify out demoAdapter 1 2 2 3 = true) :=
  ⟨by decide, by decide,
    claim_C2_rka_vrf_completeness demoAdapter 1 2 2 2 3 1 1 1 1
      (by decide) (by decide)⟩

/-- C3: Completeness of InversionProof: for every nonzero `gamma`, points
`g, h, g_tilde, h_tilde`, `delta = g • gamma`, `theta = h • gamma⁻¹` and
every choice of the blinding scalars, `prove` succeeds and its proof
object passes `verify`. -/
theorem claim_C3_inversion_proof_completeness (A : GroupAdapter G S)
    (g h g_tilde h_tilde : G) (gamma : S) (delta theta : G)
    (alpha beta tau0 tau1 : S)
    (hγ : gamma ≠ 0) (hδ : delta = gamma • g) (hθ : theta = gamma⁻¹ • h) :
    ∃ pf, InversionProof.prove A g h g_tilde h_tilde gamma delta theta
        alpha beta tau0 tau1 = some pf ∧
      pf.verify A g h g_tilde h_tilde delta theta = true :=
  ⟨_, InversionProof.prove_eq_some A g h g_tilde h_tilde gamma delta theta
      alpha beta tau0 tau1 hγ,
    InversionProof.proveResult_verify A g h g_tilde h_tilde gamma delta theta
      alpha beta tau0 tau1 hγ hδ hθ⟩

theorem claim_C3_witness :
    ((2 : ZMod 5) ≠ 0) ∧ ((2 : ZMod 5) = (2 : ZMod 5) • (1 : ZMod 5)) ∧
    ((1 : ZMod 5) = (2 : ZMod 5)⁻¹ • (2 : ZMod 5)) ∧
    (∃ pf, InversionProof.prove demoAdapter 1 2 3 4 2 2 1 1 2 3 4 =
        some pf ∧
      pf.verify demoAdapter 1 2 3 4 2 1 = true) :=
  ⟨by decide, by decide, by rw [demo_inv_two]; decide,
    claim_C3_inversion_proof_completeness demoAdapter 1 2 3 4 2 2 1 1 2 3 4
      (by decide) (by decide) (by rw [demo_inv_two]; decide)⟩

/-- C4 (amended): the `y` field of every successful `RkaVrf.eval` output is
the SHA-512 digest of `compress(x) ++ compress(u)` read as a big integer,
with no reduction modulo the group order (so `y < q` is not guaranteed). -/
theorem claim_C4_y_unreduced_digest (A : GroupAdapter G S)
    (g_tilde h_tilde vk : G) (sk : S) (x : G) (alpha beta tau0 tau1 : S)
    (out : RkaVrf.VRFOutput G S)
    (h : RkaVrf.eval A g_tilde h_tilde vk sk x alpha beta tau0 tau1 =
      some out) :
    out.y = A.sha512Nat (A.compress x ++ A.compress out.u) :=
  (RkaVrf.eval_some_inv A g_tilde h_tilde vk sk x alpha beta tau0 tau1
    out h).2.2

theorem claim_C4_witness :
    RkaVrf.eval demoAdapter 1 2 2 2 3 1 1 1 1 =
      some ⟨11, 1, ⟨0, 4, 3, 4, 2⟩⟩ ∧
    (11 : Nat) =
      demoAdapter.sha512Nat (demoAdapter.compress 3 ++
        demoAdapter.compress 1) :=
  ⟨by
    rw [RkaVrf.eval_eq_some demoAdapter 1 2 2 2 3 1 1 1 1 (by decide)]
    simp only [InversionProof.proveResult, demo_inv_two]
    decide,
   claim_C4_y_unreduced_digest demoAdapter 1 2 2 2 3 1 1 1 1
      ⟨11, 1, ⟨0, 4, 3, 4, 2⟩⟩ (by
        rw [RkaVrf.eval_eq_some demoAdapter 1 2 2 2 3 1 1 1 1 (by decide)]
        simp only [InversionProof.proveResult, demo_inv_two]
        decide)⟩

/-- C4 counterexample to the claim as stated: a concrete successful
`RkaVrf.eval` run (group order 5) whose `y` field is 11, which is not
smaller than the group order and is not reduced modulo it. -/
theorem claim_C4_counterexample :
    (RkaVrf.eval demoAdapter 1 2 2 2 3 1 1 1 1).map RkaVrf.VRFOutput.y =
      some 11 ∧
    ¬(11 < 5) ∧ 11 % 5 ≠ 11 := by
  refine ⟨?_, by decide, by decide⟩
  rw [RkaVrf.eval_eq_some demoAdapter 1 2 2 2 3 1 1 1 1 (by decide)]
  simp only [demo_inv_two]
  decide

/-- C5: Output determinism and CRS independence: the `y` and `gamma` of
`EcVrf.eval` do not depend on the nonce `k`; the `y` and `u` of
`RkaVrf.eval` do not depend on the CRS points or on the blinding
randomness. -/
theorem claim_C5_determinism_crs_independence (A : GroupAdapter G S)
    (vk : G) (sk x k k2 : S) (g_tilde h_tilde g_tilde2 h_tilde2 xp : G)
    (a b c d a2 b2 c2 d2 : S) (out out2 : RkaVrf.VRFOutput G S)
    (h1 : RkaVrf.eval A g_tilde h_tilde vk sk xp a b c d = some out)
    (h2 : RkaVrf.eval A g_tilde2 h_tilde2 vk sk xp a2 b2 c2 d2 = some out2) :
    (EcVrf.eval A vk sk x k).y = (EcVrf.eval A vk sk x k2).y ∧
    (EcVrf.eval A vk sk x k).gamma = (EcVrf.eval A vk sk x k2).gamma ∧
    out.y = out2.y ∧ out.u = out2.u := by
  obtain ⟨hsk, hu1, hy1⟩ := RkaVrf.eval_some_inv A g_tilde h_tilde vk sk xp
    a b c d out h1
  obtain ⟨_, hu2, hy2⟩ := RkaVrf.eval_some_inv A g_tilde2 h_tilde2 vk sk xp
    a2 b2 c2 d2 out2 h2
  refine ⟨rfl, rfl, ?_, ?_⟩
  · rw [hy1, hy2, hu1, hu2]
  · rw [hu1, hu2]

theorem claim_C5_witness :
    RkaVrf.eval demoAdapter 1 2 2 2 3 1 1 1 1 =
      some ⟨11, 1, ⟨0, 4, 3, 4, 2⟩⟩ ∧
    RkaVrf.eval demoAdapter 3 4 2 2 3 2 3 4 1 =
      some ⟨11, 1, ⟨1, 1, 4, 2, 0⟩⟩ ∧
    ((EcVrf.eval demoAdapter 2 2 3 4).y = (EcVrf.eval demoAdapter 2 2 3 1).y ∧
     (EcVrf.eval demoAdapter 2 2 3 4).gamma =
       (EcVrf.eval demoAdapter 2 2 3 1).gamma ∧
     (RkaVrf.VRFOutput.mk 11 1 ⟨0, 4, 3, 4, 2⟩ :
        RkaVrf.VRFOutput (ZMod 5) (ZMod 5)).y =
       (RkaVrf.VRFOutput.mk 11 1 ⟨1, 1, 4, 2, 0⟩ :
        RkaVrf.VRFOutput (ZMod 5) (ZMod 5)).y ∧
     (RkaVrf.VRFOutput.mk 11 1 ⟨0, 4, 3, 4, 2⟩ :
        RkaVrf.VRFOutput (ZMod 5) (ZMod 5)).u =
       (RkaVrf.VRFOutput.mk 11 1 ⟨1, 1, 4, 2, 0⟩ :
        RkaVrf.VRFOutput (ZMod 5) (ZMod 5)).u) :=
  ⟨by
    rw [RkaVrf.eval_eq_some demoAdapter 1 2 2 2 3 1 1 1 1 (by decide)]
    simp only [InversionProof.proveResult, demo_inv_two]
    decide,
   by
    rw [RkaVrf.eval_eq_some demoAdapter 3 4 2 2 3 2 3 4 1 (by decide)]
    simp only [InversionProof.proveResult, demo_inv_two]
    decide,
   claim_C5_determinism_crs_independence demoAdapter 2 2 3 4 1 1 2 3 4 3
      1 1 1 1 2 3 4 1 ⟨11, 1, ⟨0, 4, 3, 4, 2⟩⟩ ⟨11, 1, ⟨1, 1, 4, 2, 0⟩⟩
      (by
        rw [RkaVrf.eval_eq_some demoAdapter 1 2 2 2 3 1 1 1 1 (by decide)]
        simp only [InversionProof.proveResult, demo_inv_two]
        decide)
      (by
        rw [RkaVrf.eval_eq_some demoAdapter 3 4 2 2 3 2 3 4 1 (by decide)]
        simp only [InversionProof.proveResult, demo_inv_two]
        decide)⟩

/-- C6: Well-formed RKA-VRF output invariant: every successful
`RkaVrf.eval` output satisfies `sk • u = hash_point vk x`, equivalently
`u = sk⁻¹ • hash_point vk x`. -/
theorem claim_C6_u_invariant (A : GroupAdapter G S) (g_tilde h_tilde vk : G)
    (sk : S) (x : G) (alpha beta tau0 tau1 : S) (out : RkaVrf.VRFOutput G S)
    (h : RkaVrf.eval A g_tilde h_tilde vk sk x alpha beta tau0 tau1 =
      some out) :
    sk • out.u = RkaVrf.hash_point A vk x ∧
      out.u = sk⁻¹ • RkaVrf.hash_point A vk x := by
  obtain ⟨hsk, hu, _⟩ := RkaVrf.eval_some_inv A g_tilde h_tilde vk sk x
    alpha beta tau0 tau1 out h
  refine ⟨?_, hu⟩
  rw [hu, smul_smul, mul_inv_cancel₀ hsk, one_smul]

theorem claim_C6_witness :
    RkaVrf.eval demoAdapter 1 2 2 2 3 1 1 1 1 =
      some ⟨11, 1, ⟨0, 4, 3, 4, 2⟩⟩ ∧
    ((2 : ZMod 5) • (RkaVrf.VRFOutput.mk 11 1 ⟨0, 4, 3, 4, 2⟩ :
        RkaVrf.VRFOutput (ZMod 5) (ZMod 5)).u =
      RkaVrf.hash_point demoAdapter 2 3 ∧
     (RkaVrf.VRFOutput.mk 11 1 ⟨0, 4, 3, 4, 2⟩ :
        RkaVrf.VRFOutput (ZMod 5) (ZMod 5)).u =
      (2 : ZMod 5)⁻¹ • RkaVrf.hash_point demoAdapter 2 3) :=
  ⟨by
    rw [RkaVrf.eval_eq_some demoAdapter 1 2 2 2 3 1 1 1 1 (by decide)]
    simp only [InversionProof.proveResult, demo_inv_two]
    decide,
   claim_C6_u_invariant demoAdapter 1 2 2 2 3 1 1 1 1
      ⟨11, 1, ⟨0, 4, 3, 4, 2⟩⟩ (by
        rw [RkaVrf.eval_eq_some demoAdapter 1 2 2 2 3 1 1 1 1 (by decide)]
        simp only [InversionProof.proveResult, demo_inv_two]
        decide)⟩

/-- C7: Zero-scalar domain error: `prove` with `gamma = 0` and `RkaVrf.eval`
with `sk = 0` fail with the `ZeroScalar` error (modelled as `none`); for a
nonzero `gamma` (resp. `sk`) the inversion succeeds and the prover produces
a proof with no other domain error. -/
theorem claim_C7_zero_scalar_errors (A : GroupAdapter G S)
    (g h g_tilde h_tilde delta theta vk x : G) (gamma sk : S)
    (alpha beta tau0 tau1 : S) :
    (InversionProof.prove A g h g_tilde h_tilde (0 : S) delta theta
       alpha beta tau0 tau1 = none) ∧
    (RkaVrf.eval A g_tilde h_tilde vk (0 : S) x alpha beta tau0 tau1 =
       none) ∧
    (gamma ≠ 0 → (InversionProof.prove A g h g_tilde h_tilde gamma delta
       theta alpha beta tau0 tau1).isSome = true) ∧
    (sk ≠ 0 → (RkaVrf.eval A g_tilde h_tilde vk sk x
       alpha beta tau0 tau1).isSome = true) := by
  refine ⟨InversionProof.prove_zero_eq_none A g h g_tilde h_tilde delta theta
      alpha beta tau0 tau1,
    RkaVrf.eval_zero_eq_none A g_tilde h_tilde vk x alpha beta tau0 tau1,
    fun hγ => ?_, fun hsk => ?_⟩
  · rw [InversionProof.prove_eq_some A g h g_tilde h_tilde gamma delta theta
      alpha beta tau0 tau1 hγ]
    rfl
  · rw [RkaVrf.eval_eq_some A g_tilde h_tilde vk sk x alpha beta tau0 tau1
      hsk]
    rfl

theorem claim_C7_witness :
    (InversionProof.prove demoAdapter 1 2 3 4 0 1 2 1 1 1 1 = none) ∧
    (RkaVrf.eval demoAdapter 3 4 2 0 3 1 1 1 1 = none) ∧
    ((2 : ZMod 5) ≠ 0 →
      (InversionProof.prove demoAdapter 1 2 3 4 2 1 2 1 1 1 1).isSome =
        true) ∧
    ((2 : ZMod 5) ≠ 0 →
      (RkaVrf.eval demoAdapter 3 4 2 2 3 1 1 1 1).isSome = true) :=
  claim_C7_zero_scalar_errors demoAdapter 1 2 3 4 1 2 2 3 2 2 1 1 1 1

/-- C8: Verifier totality: each of the three verifiers is a total boolean
function of its inputs (in this embedding each is a total Lean function
into `Bool`, with no `Option` fallibility: the source verifiers contain no
unwrap or panic); every rejection is the value false. -/
theorem claim_C8_verifier_totality (A : GroupAdapter G S)
    (outE : EcVrf.VRFOutput G S) (vkE : G) (xE : S)
    (pf : InversionProof G S) (g h g_tilde h_tilde delta theta : G)
    (outR : RkaVrf.VRFOutput G S) (vk x : G) :
    (EcVrf.verify A outE vkE xE = true ∨
      EcVrf.verify A outE vkE xE = false) ∧
    (pf.verify A g h g_tilde h_tilde delta theta = true ∨
      pf.verify A g h g_tilde h_tilde delta theta = false) ∧
    (RkaVrf.verify outR A g_tilde h_tilde vk x = true ∨
      RkaVrf.verify outR A g_tilde h_tilde vk x = false) :=
  ⟨Bool.eq_false_or_eq_true (EcVrf.verify A outE vkE xE),
   Bool.eq_false_or_eq_true (pf.verify A g h g_tilde h_tilde delta theta),
   Bool.eq_false_or_eq_true (RkaVrf.verify outR A g_tilde h_tilde vk x)⟩

/-- C9: EC-VRF tolerates the zero secret key: `eval` with `sk = 0` is a
total computation producing `gamma` equal to the identity and `s = k`, and
its output verifies against `vk = g • 0` (the identity); no nonzero-key
check exists in EC-VRF. -/
theorem claim_C9_ec_vrf_zero_sk (A : GroupAdapter G S) (x k : S) (vk : G)
    (hvk : vk = (0 : S) • A.gen) :
    (EcVrf.eval A vk 0 x k).gamma = 0 ∧
    (EcVrf.eval A vk 0 x k).s = k ∧
    EcVrf.verify A (EcVrf.eval A vk 0 x k) vk x = true := by
  refine ⟨?_, ?_, EcVrf.verify_eval_of_vk A 0 x k vk hvk⟩
  · simp [EcVrf.eval]
  · simp [EcVrf.eval]

theorem claim_C9_witness :
    ((0 : ZMod 5) = (0 : ZMod 5) • demoAdapter.gen) ∧
    ((EcVrf.eval demoAdapter 0 0 3 4).gamma = 0 ∧
     (EcVrf.eval demoAdapter 0 0 3 4).s = 4 ∧
     EcVrf.verify demoAdapter (EcVrf.eval demoAdapter 0 0 3 4) 0 3 = true) :=
  ⟨by decide, claim_C9_ec_vrf_zero_sk demoAdapter 3 4 0 (by decide)⟩

/-- C10: the `y` conjunct of `EcVrf.verify` recomputes the digest of the
cofactor-multiplied stored `gamma` alone, so it evaluates identically for
any two argument pairs `(vk, x)` and `(vk2, x2)`; `verify` is exactly the
conjunction of the challenge conjunct and this `y` conjunct. -/
theorem claim_C10_y_conjunct_independent (A : GroupAdapter G S)
    (out : EcVrf.VRFOutput G S) (vk vk2 : G) (x x2 : S) :
    EcVrf.verify A out vk x =
      (EcVrf.cConjunct A out vk x && EcVrf.yConjunct A out vk x) ∧
    EcVrf.yConjunct A out vk x = EcVrf.yConjunct A out vk2 x2 ∧
    EcVrf.yConjunct A out vk x =
      decide (out.y = EcVrf.hash_output A (A.cofactorMul out.gamma)) :=
  ⟨rfl, rfl, rfl⟩

end Claims
